import Mathlib

/-!
Verification of the social-listening agent's core loop: deduplication,
batched intent scoring with fallback, keyword refinement, the refinement
loop controller, and the outreach tier classifier.

The external collaborators (scrapers and the three language-model oracles)
are modelled as explicit function parameters; everything else is translated
directly from `agent.py`, `scorer.py`, `outreach.py` and the two scrapers.
-/

namespace SocialListener

/-- A discovered post. Raw fields (`source`, `url`, `title`, `snippet`) are
set by the scrapers; the five scoring fields are dictionary entries in the
Python code and are therefore modelled as `Option`s (absent = `none`).
Source-native metadata (subreddit, engagement score, reply count, creation
time, author) is carried by no claim and is omitted. -/
structure Post where
  source : String
  url : String
  title : String
  snippet : String
  topic_label : Option String
  intent_score : Option Int
  recommended_action : Option String
  suggested_response : Option String
  why_this_matters : Option String
deriving DecidableEq

/-- Inputs of `_submission_to_dict` in `scrapers/reddit_scraper.py`. -/
structure Submission where
  permalink : String
  title : String
  selftext : String
deriving DecidableEq

/-- Embedding of `_submission_to_dict` (reddit_scraper.py lines 39-50): the
resulting dictionary contains no scoring keys, so the five scoring fields
are `none`. -/
def submission_to_dict (s : Submission) : Post :=
  { source := "reddit"
    url := "https://reddit.com" ++ s.permalink
    title := s.title
    snippet := s.selftext.take 500
    topic_label := none
    intent_score := none
    recommended_action := none
    suggested_response := none
    why_this_matters := none }

/-- Embedding of the post record built from a web search result
(web_scraper.py lines 58-68); `src` is `_classify_source(url)`. The
dictionary contains no scoring keys, so the scoring fields are `none`. -/
def web_result_to_post (src url title snippet : String) : Post :=
  { source := src
    url := url
    title := title
    snippet := snippet.take 500
    topic_label := none
    intent_score := none
    recommended_action := none
    suggested_response := none
    why_this_matters := none }

/-- Embedding of the URL-set update `all_seen_urls.add(p["url"])` performed
for every admitted post (agent.py lines 152-153). The Python `set` is
modelled as a duplicate-free list, so insertion skips URLs already present. -/
def recordUrls (seen : List String) (posts : List Post) : List String :=
  posts.foldl (fun s p => if s.contains p.url then s else s ++ [p.url]) seen

/-- Embedding of the per-iteration deduplication (agent.py lines 150-153):
`new_posts = [p for p in iteration_posts if p["url"] not in all_seen_urls]`
followed by recording the URLs of all admitted posts. Note that the whole
batch is filtered against the ledger as it was BEFORE the batch, and only
afterwards are the admitted URLs recorded. Returns (new_posts, updated
ledger). -/
def filter_new (iteration_posts : List Post) (all_seen_urls : List String) :
    List Post × List String :=
  let new_posts := iteration_posts.filter (fun p => !(all_seen_urls.contains p.url))
  (new_posts, recordUrls all_seen_urls new_posts)

/-- One parsed item of the scoring oracle's JSON response (scorer.py).
Each key may be absent, hence `Option` fields. -/
structure ScoreItem where
  id : Option Int
  topic_label : Option String
  intent_score : Option Int
  recommended_action : Option String
  suggested_response : Option String
  why_this_matters : Option String
deriving DecidableEq

/-- The empty dictionary `{}` used as default in `score_map.get(i, {})`
(scorer.py line 116). -/
def emptyItem : ScoreItem :=
  ⟨none, none, none, none, none, none⟩

/-- Embedding of the `post.update({...})` merge (scorer.py lines 117-123):
each of the five scoring fields is taken from the response item with the
per-field default of `info.get`. -/
def applyItem (info : ScoreItem) (p : Post) : Post :=
  { p with
    topic_label := some (info.topic_label.getD "general_education")
    intent_score := some (info.intent_score.getD 0)
    recommended_action := some (info.recommended_action.getD "content")
    suggested_response := some (info.suggested_response.getD "")
    why_this_matters := some (info.why_this_matters.getD "") }

/-- Embedding of the all-retries-failed fallback `post.update({...})`
(scorer.py lines 98-105). -/
def fallbackUpdate (p : Post) : Post :=
  { p with
    topic_label := some "general_education"
    intent_score := some 0
    recommended_action := some "content"
    suggested_response := some ""
    why_this_matters := some "Scoring failed" }

/-- Embedding of `score_map = {item["id"]: item for item in result}` followed
by `score_map.get(i, ...)` (scorer.py lines 111-112, 116): the Python dict is
built in iteration order, so for duplicate ids the LAST item wins, which is
the last element of the filtered list. -/
def lookupById (items : List ScoreItem) (i : Int) : Option ScoreItem :=
  (items.filter (fun it => it.id == some i)).getLast?

/-- Embedding of the merge loop `for i, post in enumerate(batch)` (scorer.py
lines 115-124), carrying the current index `i`. `hasIds` is
`all("id" in item for item in result)` (line 110). -/
def mergeBatch (items : List ScoreItem) (hasIds : Bool) : Nat → List Post → List Post
  | _, [] => []
  | i, p :: ps =>
    let info := if hasIds then lookupById items (Int.ofNat i) else items[i]?
    applyItem (info.getD emptyItem) p :: mergeBatch items hasIds (i + 1) ps

/-- Processing of one batch (scorer.py lines 72-124): `result` is the parsed
oracle response after the retry loop, `none` when all 3 attempts failed.
On failure every post of the batch gets the fallback classification; on
success results are merged back by id if every item carries one, else by
position. -/
def scoreBatch (result : Option (List ScoreItem)) (batch : List Post) : List Post :=
  match result with
  | none => batch.map fallbackUpdate
  | some items => mergeBatch items (items.all (fun it => it.id.isSome)) 0 batch

/-- Embedding of the batching `for start in range(0, len(posts), batch_size)`
with `batch = posts[start : start + batch_size]` and `batch_size = 5`
(scorer.py lines 63-67): the posts are cut into consecutive slices of five,
the last slice possibly shorter. -/
def chunks : List Post → List (List Post)
  | [] => []
  | [a] => [[a]]
  | [a, b] => [[a, b]]
  | [a, b, c] => [[a, b, c]]
  | [a, b, c, d] => [[a, b, c, d]]
  | a :: b :: c :: d :: e :: rest => [a, b, c, d, e] :: chunks rest

/-- Per-batch processing over the list of batches; the oracle is indexed by
the batch number so each call may behave differently. -/
def scoreChunksFrom (oracle : Nat → Option (List ScoreItem)) :
    Nat → List (List Post) → List (List Post)
  | _, [] => []
  | b, c :: cs => scoreBatch (oracle b) c :: scoreChunksFrom oracle (b + 1) cs

/-- The per-batch output segments of `score_opportunities`, in batch order;
the flat `scored` list of the Python code is their concatenation. -/
def scoredBatches (oracle : Nat → Option (List ScoreItem)) (posts : List Post) :
    List (List Post) :=
  scoreChunksFrom oracle 0 (chunks posts)

/-- Embedding of `score_opportunities` (scorer.py lines 58-128). The scoring
oracle — one `client.chat.completions.create` call cycle with up to 3
attempts per batch — is modelled as a function from the batch number to the
parsed response, `none` meaning all attempts failed. -/
def score_opportunities (oracle : Nat → Option (List ScoreItem)) (posts : List Post) :
    List Post :=
  if posts.isEmpty then [] else (scoredBatches oracle posts).flatten

/-- The compact post summary sent to the refinement oracle
(scorer.py lines 139-146). -/
structure PostSummary where
  title : String
  topic : String
  score : Int
deriving DecidableEq

/-- Embedding of the `post_summaries` construction (scorer.py lines 139-146):
at most the first 10 posts, title truncated to 100 characters. -/
def post_summaries (high_scoring_posts : List Post) : List PostSummary :=
  (high_scoring_posts.take 10).map
    (fun p => ⟨p.title.take 100, p.topic_label.getD "", p.intent_score.getD 0⟩)

/-- Embedding of Python's `str.lower()` (scorer.py lines 169-170) as a
character-wise lowercase map; this is extensionally `String.toLower` but
written over the character list so it evaluates inside the kernel. -/
def pyLower (s : String) : String :=
  ⟨s.data.map Char.toLower⟩

/-- Embedding of `generate_refined_keywords` (scorer.py lines 131-173). The
single oracle call (no retry) is modelled as a function from the summaries to
the parsed keyword list, `none` meaning the call failed, in which case the
result is `[]`. On success the result is filtered case-insensitively against
the original keywords. -/
def generate_refined_keywords (original_keywords : List String)
    (high_scoring_posts : List Post)
    (oracle : List PostSummary → Option (List String)) : List String :=
  match oracle (post_summaries high_scoring_posts) with
  | none => []
  | some new_keywords =>
    let original_lower := original_keywords.map (fun k => pyLower k)
    new_keywords.filter (fun k => !(original_lower.contains (pyLower k)))

/-- Embedding of `classify_outreach_action` (outreach.py lines 30-40), with
`DM_MIN_SCORE = 80`, `COMMENT_MIN_SCORE = 70`, `CONTENT_NOTE_MIN_SCORE = 60`
inlined, and `post.get(key, default)` rendered as `Option.getD`. -/
def classify_outreach_action (post : Post) : Option String :=
  let score := post.intent_score.getD 0
  let action := post.recommended_action.getD ""
  if 80 ≤ score ∧ action = "DM" then some "dm"
  else if 70 ≤ score ∧ action = "comment" then some "comment"
  else if 60 ≤ score ∧ action = "content" then some "content_idea"
  else none

/-- A post carrying only the two fields `classify_outreach_action` reads,
used to state the classifier claims as functions of (score, action). -/
def mkScored (s : Int) (a : String) : Post :=
  ⟨"", "", "", "", none, some s, some a, none, none⟩

/-- The sort key `lambda p: p["intent_score"]` (agent.py lines 177, 189);
every qualified post has been through scoring, so the field is present and
the default is immaterial. -/
def postScore (p : Post) : Int :=
  p.intent_score.getD 0

/-- Embedding of `sorted(..., key=lambda p: p["intent_score"], reverse=True)`
and the in-place equivalent (agent.py lines 177 and 189): Python's sort is
stable, and `reverse=True` inverts the key comparison without disturbing
ties, which is exactly stable merge sort under the reversed relation. -/
def sortQualifiedDesc (l : List Post) : List Post :=
  l.mergeSort (fun a b => decide (postScore b ≤ postScore a))

/-- The run configuration fields read by `main` (agent.py lines 113-121). -/
structure Config where
  max_iterations : Nat
  max_results : Nat
  min_score : Int
  keywords : List String

/-- The external collaborators of one run, indexed by the iteration number so
every behaviour over time is covered: `scrape` is the concatenation of the
enabled scrapers' results (agent.py lines 131-146), `score` is
`score_opportunities` (line 163), `refine` is `generate_refined_keywords`
(line 178). -/
structure Env where
  scrape : Nat → List String → List Post
  score : Nat → List Post → List Post
  refine : Nat → List String → List Post → List String

/-- The mutable state of the refinement loop (agent.py lines 118-121). -/
structure LoopState where
  all_seen_urls : List String
  all_qualified : List Post
  total_raw : Nat
  current_keywords : List String

/-- Which condition stopped the loop. -/
inductive StopReason where
  | noNewPosts
  | targetReached
  | iterationsExhausted
  | noKeywords
deriving DecidableEq

/-- Result of the loop: final state, number of loop-body executions, number
of scoring passes, and the condition that stopped the loop. -/
structure LoopResult where
  state : LoopState
  iterations : Nat
  scoringPasses : Nat
  reason : StopReason

/-- Embedding of the iterative search-refine loop body (agent.py lines
124-186). `fuel` is the number of allowed iterations still available
including the current one, so `fuel = 0` after the qualification check
corresponds to `iteration < max_iterations` failing (line 175: the last
allowed iteration attempts no refinement and falls through to the loop's
`else`). The checks appear in source order: no new posts (line 157, before
scoring), target reached (line 170), last allowed iteration (line 175),
refiner returned nothing (line 179). -/
def loopFrom (env : Env) (cfg : Config) : Nat → Nat → LoopState → LoopResult
  | 0, _, st => ⟨st, 0, 0, .iterationsExhausted⟩
  | fuel + 1, i, st =>
    let iteration_posts := env.scrape i st.current_keywords
    let st1 : LoopState :=
      { st with total_raw := st.total_raw + iteration_posts.length }
    let fn := filter_new iteration_posts st1.all_seen_urls
    let new_posts := fn.1
    let st2 : LoopState := { st1 with all_seen_urls := fn.2 }
    if new_posts.isEmpty then ⟨st2, 1, 0, .noNewPosts⟩
    else
      let scored := env.score i new_posts
      let new_qualified := scored.filter (fun p => decide (cfg.min_score ≤ postScore p))
      let st3 : LoopState :=
        { st2 with all_qualified := st2.all_qualified ++ new_qualified }
      if cfg.max_results ≤ st3.all_qualified.length then ⟨st3, 1, 1, .targetReached⟩
      else if fuel = 0 then ⟨st3, 1, 1, .iterationsExhausted⟩
      else
        let high_scorers := sortQualifiedDesc st3.all_qualified
        let new_keywords := env.refine i cfg.keywords high_scorers
        if new_keywords.isEmpty then ⟨st3, 1, 1, .noKeywords⟩
        else
          let st4 : LoopState := { st3 with current_keywords := new_keywords }
          let r := loopFrom env cfg fuel (i + 1) st4
          ⟨r.state, r.iterations + 1, r.scoringPasses + 1, r.reason⟩

/-- Embedding of the whole loop (agent.py lines 118-186): iterations are
numbered from 1, the ledger and qualified list start empty, and the working
keyword set starts as a copy of the configured keywords (line 121). -/
def runLoop (env : Env) (cfg : Config) : LoopResult :=
  loopFrom env cfg cfg.max_iterations 1 ⟨[], [], 0, cfg.keywords⟩

/-- Embedding of the post-loop sort-and-trim (agent.py lines 188-190). -/
def runAgent (env : Env) (cfg : Config) : List Post :=
  (sortQualifiedDesc (runLoop env cfg).state.all_qualified).take cfg.max_results

/-- Predicate: `q` agrees with `p` on the four raw fields set by the
scrapers; used to state that scoring only annotates posts. -/
def RawEq (q p : Post) : Prop :=
  q.source = p.source ∧ q.url = p.url ∧ q.title = p.title ∧ q.snippet = p.snippet

/-- Predicate: all five scoring fields of `q` are set. -/
def FieldsSet (q : Post) : Prop :=
  q.topic_label.isSome ∧ q.intent_score.isSome ∧ q.recommended_action.isSome ∧
    q.suggested_response.isSome ∧ q.why_this_matters.isSome

/-- Predicate: `q` is the scored version of the input post `p`. -/
def ScoredOf (q p : Post) : Prop :=
  RawEq q p ∧ FieldsSet q

/-- A raw scraped post used in concrete runs. -/
def post0 : Post :=
  ⟨"reddit", "https://reddit.com/a", "title a", "", none, none, none, none, none⟩

/-- A second raw post carrying the same URL as `post0` (as when the forum
scraper and the web scraper both return the same link in one iteration). -/
def post1 : Post :=
  ⟨"web", "https://reddit.com/a", "title b", "", none, none, none, none, none⟩

/-- An oracle response item with an out-of-range intent score. -/
def item150 : ScoreItem :=
  ⟨some 0, some "GRE", some 150, some "DM", some "ok", some "why"⟩

/-- A scoring oracle that answers every batch with `item150`. -/
def oracle150 : Nat → Option (List ScoreItem) :=
  fun _ => some [item150]

/-- An oracle response item whose id (1) correlates with no post of a
one-post batch (position 0). -/
def itemShifted : ScoreItem :=
  ⟨some 1, some "GRE", some 95, some "DM", some "ok", some "why"⟩

/-- A scoring oracle whose response leaves position 0 uncorrelated. -/
def oracleShifted : Nat → Option (List ScoreItem) :=
  fun _ => some [itemShifted]

/-- A scoring oracle for which every batch exhausts all three attempts. -/
def oracleFail : Nat → Option (List ScoreItem) :=
  fun _ => none

/-- An oracle response item without id carrying a qualifying score. -/
def item90 : ScoreItem :=
  ⟨none, some "GRE", some 90, some "DM", some "r", some "w"⟩

/-- Concrete collaborators: the scrapers return the two posts sharing one
URL in a single iteration, scoring annotates every post with `item90`, and
the refiner returns nothing. -/
def envDup : Env :=
  { scrape := fun _ _ => [post0, post1]
    score := fun _ l => l.map (applyItem item90)
    refine := fun _ _ _ => [] }

/-- Concrete run configuration: one iteration, up to five results,
minimum intent score 60. -/
def cfgDup : Config :=
  ⟨1, 5, 60, ["GRE prep"]⟩

theorem recordUrls_cons (seen : List String) (p : Post) (ps : List Post) :
    recordUrls seen (p :: ps) =
      recordUrls (if seen.contains p.url then seen else seen ++ [p.url]) ps := by
  simp only [recordUrls, List.foldl_cons]

theorem mem_recordUrls_of_mem (u : String) :
    ∀ (ps : List Post) (seen : List String), u ∈ seen → u ∈ recordUrls seen ps := by
  intro ps
  induction ps with
  | nil => intro seen h; simpa [recordUrls] using h
  | cons p ps ih =>
    intro seen h
    rw [recordUrls_cons]
    apply ih
    split
    · exact h
    · exact List.mem_append_left _ h

theorem url_mem_recordUrls (p : Post) :
    ∀ (ps : List Post) (seen : List String), p ∈ ps → p.url ∈ recordUrls seen ps := by
  intro ps
  induction ps with
  | nil => intro seen h; cases h
  | cons q ps ih =>
    intro seen h
    rw [recordUrls_cons]
    rcases List.mem_cons.mp h with hpq | hmem
    · subst hpq
      apply mem_recordUrls_of_mem
      split
      · next hc => exact List.mem_of_elem_eq_true hc
      · exact List.mem_append_right _ (List.mem_singleton.mpr rfl)
    · exact ih _ hmem

/-- C1 (amended). Deduplication is batchwise, not per post: `filter_new`
checks every post of the incoming batch against the ledger as it was before
the batch and only afterwards records the admitted URLs. Hence no post whose
URL is already in the ledger is ever admitted again, the ledger only grows,
and every admitted post's URL is in the updated ledger — but duplicates
inside one batch are not prevented (see the counterexample). -/
theorem dedup_batchwise (posts : List Post) (seen : List String) :
    (∀ p ∈ (filter_new posts seen).1, p.url ∉ seen) ∧
    (∀ u ∈ seen, u ∈ (filter_new posts seen).2) ∧
    (∀ p ∈ (filter_new posts seen).1, p.url ∈ (filter_new posts seen).2) := by
  refine ⟨?_, ?_, ?_⟩
  · intro p hp
    have := List.of_mem_filter hp
    simp only [Bool.not_eq_eq_eq_not, Bool.not_true] at this
    intro hmem
    have hc : seen.contains p.url = true := List.elem_eq_true_of_mem hmem
    rw [hc] at this
    cases this
  · intro u hu
    exact mem_recordUrls_of_mem u _ seen hu
  · intro p hp
    exact url_mem_recordUrls p _ seen hp

/-- C1 (counterexample). The claim as stated is false: when the same URL
occurs twice within a single iteration's batch, both occurrences are
admitted, and both can end up qualified, so the final qualified list can
contain two posts with the same URL. Witnessed by the concrete run
`runLoop envDup cfgDup`, whose qualified list has URL multiset
["https://reddit.com/a", "https://reddit.com/a"]. -/
theorem dedup_counterexample :
    ¬ (∀ (env : Env) (cfg : Config),
        ((runLoop env cfg).state.all_qualified.map Post.url).Nodup) := by
  intro h
  have := h envDup cfgDup
  revert this
  decide

/-- C7. The outreach classifier is a pure function of
(intent_score, recommended_action) implementing exactly the three ordered
threshold rules, and the four concrete examples of the claim hold. -/
theorem classifier_tiers :
    (∀ p q : Post, p.intent_score = q.intent_score →
      p.recommended_action = q.recommended_action →
      classify_outreach_action p = classify_outreach_action q) ∧
    (∀ (s : Int) (a : String), classify_outreach_action (mkScored s a) =
      if 80 ≤ s ∧ a = "DM" then some "dm"
      else if 70 ≤ s ∧ a = "comment" then some "comment"
      else if 60 ≤ s ∧ a = "content" then some "content_idea"
      else none) ∧
    classify_outreach_action (mkScored 85 "DM") = some "dm" ∧
    classify_outreach_action (mkScored 65 "comment") = none ∧
    classify_outreach_action (mkScored 60 "content") = some "content_idea" ∧
    classify_outreach_action (mkScored 59 "content") = none := by
  refine ⟨?_, ?_, by decide, by decide, by decide, by decide⟩
  · intro p q h1 h2
    simp only [classify_outreach_action, h1, h2]
  · intro s a
    rfl

/-- C10. The classifier compares recommended_action case-sensitively against
"DM", "comment" and "content": any other action string yields no tier, no
matter the score. -/
theorem classifier_case_sensitive (p : Post)
    (hdm : p.recommended_action.getD "" ≠ "DM")
    (hcm : p.recommended_action.getD "" ≠ "comment")
    (hct : p.recommended_action.getD "" ≠ "content") :
    classify_outreach_action p = none := by
  simp [classify_outreach_action, hdm, hcm, hct]

/-- C10 (witness). A post with the lowercase action "dm" and intent score
100 is excluded from outreach. -/
theorem classifier_case_sensitive_witness :
    classify_outreach_action (mkScored 100 "dm") = none :=
  classifier_case_sensitive (mkScored 100 "dm") (by decide) (by decide) (by decide)

/-- C8. Keywords returned by the refiner never match any original keyword
case-insensitively; a failed oracle call yields the empty list with no
retry; and the concrete example of the claim evaluates as stated. -/
theorem refiner_filters_originals :
    (∀ (original_keywords : List String) (hsp : List Post)
        (oracle : List PostSummary → Option (List String)) (k : String),
        k ∈ generate_refined_keywords original_keywords hsp oracle →
        ∀ o ∈ original_keywords, pyLower k ≠ pyLower o) ∧
    (∀ (original_keywords : List String) (hsp : List Post),
        generate_refined_keywords original_keywords hsp (fun _ => none) = []) ∧
    generate_refined_keywords ["GRE prep"] []
        (fun _ => some ["GRE PREP", "TOEFL tips"]) = ["TOEFL tips"] := by
  refine ⟨?_, fun _ _ => rfl, by decide⟩
  intro ok hsp oracle k hk o ho heq
  unfold generate_refined_keywords at hk
  cases hor : oracle (post_summaries hsp) with
  | none => rw [hor] at hk; cases hk
  | some nk =>
    rw [hor] at hk
    simp only [List.mem_filter, Bool.not_eq_eq_eq_not, Bool.not_true] at hk
    have hnotin : pyLower k ∉ ok.map (fun k => pyLower k) := by
      have := hk.2
      rw [← Bool.not_eq_true] at this
      intro hmem
      exact this (List.elem_eq_true_of_mem hmem)
    exact hnotin (heq ▸ List.mem_map_of_mem (fun k => pyLower k) ho)

theorem scoredOf_applyItem (info : ScoreItem) (p : Post) : ScoredOf (applyItem info p) p := by
  simp [ScoredOf, RawEq, FieldsSet, applyItem]

theorem scoredOf_fallback (p : Post) : ScoredOf (fallbackUpdate p) p := by
  simp [ScoredOf, RawEq, FieldsSet, fallbackUpdate]

theorem forall2_append {R : Post → Post → Prop} :
    ∀ {a b c d : List Post}, List.Forall₂ R a b → List.Forall₂ R c d →
      List.Forall₂ R (a ++ c) (b ++ d) := by
  intro a b c d h1 h2
  induction h1 with
  | nil => simpa using h2
  | cons h _ ih => simpa using ⟨h, ih⟩

theorem forall2_mergeBatch (items : List ScoreItem) (hid : Bool) :
    ∀ (i : Nat) (ps : List Post), List.Forall₂ ScoredOf (mergeBatch items hid i ps) ps := by
  intro i ps
  induction ps generalizing i with
  | nil => simp [mergeBatch]
  | cons p ps ih =>
    simp only [mergeBatch]
    exact List.Forall₂.cons (scoredOf_applyItem _ _) (ih _)

theorem forall2_scoreBatch (r : Option (List ScoreItem)) (c : List Post) :
    List.Forall₂ ScoredOf (scoreBatch r c) c := by
  cases r with
  | none =>
    simp only [scoreBatch]
    induction c with
    | nil => simp
    | cons p ps ih => exact List.Forall₂.cons (scoredOf_fallback p) ih
  | some items => exact forall2_mergeBatch items _ 0 c

theorem chunks_flatten : ∀ l : List Post, (chunks l).flatten = l := by
  intro l
  induction l using chunks.induct <;> simp [chunks, *]

theorem forall2_scoreChunksFrom (oracle : Nat → Option (List ScoreItem)) :
    ∀ (cs : List (List Post)) (b : Nat),
      List.Forall₂ ScoredOf (scoreChunksFrom oracle b cs).flatten cs.flatten := by
  intro cs
  induction cs with
  | nil => intro b; simp [scoreChunksFrom]
  | cons c cs ih =>
    intro b
    simp only [scoreChunksFrom, List.flatten_cons]
    exact forall2_append (forall2_scoreBatch _ _) (ih _)

theorem score_opportunities_forall2 (oracle : Nat → Option (List ScoreItem))
    (posts : List Post) :
    List.Forall₂ ScoredOf (score_opportunities oracle posts) posts := by
  unfold score_opportunities
  split
  · next h =>
    rw [List.isEmpty_iff.mp h]
    exact List.Forall₂.nil
  · next h =>
    have := forall2_scoreChunksFrom oracle (chunks posts) 0
    rw [chunks_flatten] at this
    exact this

/-- C4. For every input list and every behaviour of the scoring oracle,
score_opportunities returns a list of the same length, in the same order
(each output post agrees with the corresponding input post on the raw
fields), and with all five scoring fields set on every output post. -/
theorem scorer_length_order (oracle : Nat → Option (List ScoreItem)) (posts : List Post) :
    (score_opportunities oracle posts).length = posts.length ∧
    List.Forall₂ ScoredOf (score_opportunities oracle posts) posts :=
  ⟨(score_opportunities_forall2 oracle posts).length_eq,
    score_opportunities_forall2 oracle posts⟩

theorem scoreChunksFrom_getElem (oracle : Nat → Option (List ScoreItem)) :
    ∀ (cs : List (List Post)) (b i : Nat),
      (scoreChunksFrom oracle b cs)[i]? = (cs[i]?).map (scoreBatch (oracle (b + i))) := by
  intro cs
  induction cs with
  | nil => intro b i; simp [scoreChunksFrom]
  | cons c cs ih =>
    intro b i
    cases i with
    | zero => simp [scoreChunksFrom]
    | succ n =>
      simp only [scoreChunksFrom, List.getElem?_cons_succ]
      rw [ih (b + 1) n]
      have hbn : b + 1 + n = b + (n + 1) := by omega
      rw [hbn]

theorem scoredBatches_getElem (oracle : Nat → Option (List ScoreItem))
    (posts : List Post) (b : Nat) :
    (scoredBatches oracle posts)[b]? = ((chunks posts)[b]?).map (scoreBatch (oracle b)) := by
  unfold scoredBatches
  rw [scoreChunksFrom_getElem]
  simp

/-- C5. If all three scoring attempts fail for a batch, every post of that
batch receives exactly the fallback classification
(topic_label "general_education", intent_score 0, recommended_action
"content", suggested_response "", why_this_matters "Scoring failed"); the
embedding is total, so scoring never raises past its boundary for any
oracle behaviour. -/
theorem scorer_batch_fallback (oracle : Nat → Option (List ScoreItem)) (posts : List Post)
    (b : Nat) (batch : List Post)
    (h : oracle b = none) (hb : (chunks posts)[b]? = some batch) :
    (scoredBatches oracle posts)[b]? = some (batch.map (fun p =>
      { p with topic_label := some "general_education", intent_score := some 0,
               recommended_action := some "content", suggested_response := some "",
               why_this_matters := some "Scoring failed" })) := by
  rw [scoredBatches_getElem, h, hb]
  rfl

/-- C5 (witness). The one-post batch under the always-failing oracle comes
back with exactly the fallback classification. -/
theorem scorer_batch_fallback_witness :
    (scoredBatches oracleFail [post0])[0]? =
      some [⟨"reddit", "https://reddit.com/a", "title a", "",
        some "general_education", some 0, some "content", some "",
        some "Scoring failed"⟩] :=
  scorer_batch_fallback oracleFail [post0] 0 [post0] rfl rfl

theorem mergeBatch_getElem (items : List ScoreItem) (hid : Bool) :
    ∀ (ps : List Post) (j i : Nat),
      (mergeBatch items hid j ps)[i]? = (ps[i]?).map (fun p =>
        applyItem ((if hid then lookupById items (Int.ofNat (j + i))
          else items[(j + i)]?).getD emptyItem) p) := by
  intro ps
  induction ps with
  | nil => intro j i; simp [mergeBatch]
  | cons p ps ih =>
    intro j i
    cases i with
    | zero => simp [mergeBatch]
    | succ n =>
      simp only [mergeBatch, List.getElem?_cons_succ]
      rw [ih (j + 1) n]
      have hjn : j + 1 + n = j + (n + 1) := by omega
      rw [hjn]

/-- C6 (amended). On a successful oracle response for a batch, response
items are correlated to input posts by id when every item carries one
(Python dict semantics: on duplicate ids the last item wins) and by
positional index otherwise; a post with no correlating item receives
topic_label "general_education", intent_score 0, recommended_action
"content", suggested_response "" and why_this_matters "" — the empty
string, NOT "Scoring failed" — while the other posts of the batch keep
their oracle-provided values. -/
theorem scorer_correlation (oracle : Nat → Option (List ScoreItem)) (posts : List Post)
    (b : Nat) (items : List ScoreItem) (batch : List Post) (i : Nat) (p : Post)
    (h : oracle b = some items) (hb : (chunks posts)[b]? = some batch)
    (hp : batch[i]? = some p) :
    ((scoredBatches oracle posts)[b]?.getD [])[i]? =
      some (applyItem ((if items.all (fun it => it.id.isSome)
        then lookupById items (Int.ofNat i) else items[i]?).getD emptyItem) p) ∧
    applyItem emptyItem p =
      { p with topic_label := some "general_education", intent_score := some 0,
               recommended_action := some "content", suggested_response := some "",
               why_this_matters := some "" } := by
  refine ⟨?_, rfl⟩
  rw [scoredBatches_getElem, h, hb]
  show (scoreBatch (some items) batch)[i]? = _
  simp only [scoreBatch]
  rw [mergeBatch_getElem items _ batch 0 i, hp]
  simp

/-- C6 (witness). A one-post batch whose single response item carries id 1:
position 0 has no correlating item and receives the per-field defaults,
with why_this_matters the empty string. -/
theorem scorer_correlation_witness :
    ((scoredBatches oracleShifted [post0])[0]?.getD [])[0]? =
      some ⟨"reddit", "https://reddit.com/a", "title a", "",
        some "general_education", some 0, some "content", some "", some ""⟩ ∧
    applyItem emptyItem post0 =
      ⟨"reddit", "https://reddit.com/a", "title a", "",
        some "general_education", some 0, some "content", some "", some ""⟩ :=
  scorer_correlation oracleShifted [post0] 0 [itemShifted] [post0] 0 post0 rfl rfl rfl

/-- C6 (counterexample). The claim as stated is false: at the concrete
input where the only response item carries id 1 and the single post sits at
position 0, the uncorrelated post ends with why_this_matters equal to the
empty string, not to "Scoring failed" as a failed batch would give. -/
theorem scorer_correlation_counterexample :
    (score_opportunities oracleShifted [post0]).map Post.why_this_matters ≠
      [some "Scoring failed"] ∧
    (score_opportunities oracleShifted [post0]).map Post.why_this_matters = [some ""] := by
  exact ⟨by decide, by decide⟩

theorem forall2_mem_left {R : Post → Post → Prop} :
    ∀ {l₁ l₂ : List Post}, List.Forall₂ R l₁ l₂ → ∀ q ∈ l₁, ∃ p ∈ l₂, R q p := by
  intro l₁ l₂ h
  induction h with
  | nil => intro q hq; cases hq
  | cons hr _ ih =>
    intro q hq
    rcases List.mem_cons.mp hq with rfl | hq
    · exact ⟨_, List.mem_cons_self _ _, hr⟩
    · obtain ⟨p, hp, hrp⟩ := ih q hq
      exact ⟨p, List.mem_cons_of_mem _ hp, hrp⟩

/-- C9 (amended). The five scoring fields are unset on every post the
scrapers produce, and after the Intent Scorer processes a post all five are
set; intent_score is the oracle's value taken verbatim (0 on fallback or
missing correlation) and is NOT clamped to [0,100] — the range part of the
claim fails, see the counterexample. -/
theorem scoring_fields_set :
    (∀ s : Submission,
      (submission_to_dict s).topic_label = none ∧
      (submission_to_dict s).intent_score = none ∧
      (submission_to_dict s).recommended_action = none ∧
      (submission_to_dict s).suggested_response = none ∧
      (submission_to_dict s).why_this_matters = none) ∧
    (∀ src url title snippet : String,
      (web_result_to_post src url title snippet).topic_label = none ∧
      (web_result_to_post src url title snippet).intent_score = none ∧
      (web_result_to_post src url title snippet).recommended_action = none ∧
      (web_result_to_post src url title snippet).suggested_response = none ∧
      (web_result_to_post src url title snippet).why_this_matters = none) ∧
    (∀ (oracle : Nat → Option (List ScoreItem)) (posts : List Post),
      ∀ q ∈ score_opportunities oracle posts, FieldsSet q) := by
  refine ⟨fun s => ⟨rfl, rfl, rfl, rfl, rfl⟩,
    fun a b c d => ⟨rfl, rfl, rfl, rfl, rfl⟩, ?_⟩
  intro oracle posts q hq
  obtain ⟨p, _, hsp⟩ := forall2_mem_left (score_opportunities_forall2 oracle posts) q hq
  exact hsp.2

/-- C9 (counterexample). The claim's range invariant is false: with an
oracle response carrying intent_score 150, the scored post ends with
intent_score 150, outside [0,100]. -/
theorem scoring_range_counterexample :
    ¬ (∀ (oracle : Nat → Option (List ScoreItem)) (posts : List Post),
        ∀ q ∈ score_opportunities oracle posts,
        ∀ n : Int, q.intent_score = some n → 0 ≤ n ∧ n ≤ 100) := by
  intro h
  have := h oracle150 [post0] (applyItem item150 post0) (by decide) 150 (by decide)
  exact absurd this (by decide)

theorem loopFrom_spec (env : Env) (cfg : Config) :
    ∀ (fuel i : Nat) (st : LoopState),
      (loopFrom env cfg fuel i st).iterations ≤ fuel ∧
      (loopFrom env cfg fuel i st).scoringPasses ≤ (loopFrom env cfg fuel i st).iterations ∧
      ((loopFrom env cfg fuel i st).reason = StopReason.iterationsExhausted →
        (loopFrom env cfg fuel i st).iterations = fuel) ∧
      ((loopFrom env cfg fuel i st).reason = StopReason.noKeywords →
        (loopFrom env cfg fuel i st).iterations < fuel) ∧
      ((loopFrom env cfg fuel i st).reason = StopReason.noNewPosts →
        (loopFrom env cfg fuel i st).scoringPasses + 1 =
          (loopFrom env cfg fuel i st).iterations) := by
  intro fuel
  induction fuel with
  | zero => intro i st; simp [loopFrom]
  | succ fuel ih =>
    intro i st
    simp only [loopFrom]
    split
    · refine ⟨?_, ?_, ?_, ?_, ?_⟩ <;> dsimp only
      · omega
      · omega
      · exact fun hr => absurd hr (by decide)
      · exact fun hr => absurd hr (by decide)
      · exact fun _ => rfl
    · split
      · refine ⟨?_, ?_, ?_, ?_, ?_⟩ <;> dsimp only
        · omega
        · omega
        · exact fun hr => absurd hr (by decide)
        · exact fun hr => absurd hr (by decide)
        · exact fun hr => absurd hr (by decide)
      · split
        · next hfuel =>
          subst hfuel
          refine ⟨?_, ?_, ?_, ?_, ?_⟩ <;> dsimp only
          · omega
          · omega
          · exact fun _ => rfl
          · exact fun hr => absurd hr (by decide)
          · exact fun hr => absurd hr (by decide)
        · next hfuel =>
          split
          · refine ⟨?_, ?_, ?_, ?_, ?_⟩ <;> dsimp only
            · omega
            · omega
            · exact fun hr => absurd hr (by decide)
            · exact fun _ => by omega
            · exact fun hr => absurd hr (by decide)
          · refine ⟨?_, ?_, ?_, ?_, ?_⟩ <;> dsimp only
            · exact Nat.succ_le_succ (ih (i + 1) _).1
            · exact Nat.succ_le_succ (ih (i + 1) _).2.1
            · exact fun hr => congrArg (· + 1) ((ih (i + 1) _).2.2.1 hr)
            · exact fun hr => Nat.succ_lt_succ ((ih (i + 1) _).2.2.2.1 hr)
            · exact fun hr => congrArg (· + 1) ((ih (i + 1) _).2.2.2.2 hr)

/-- C2. The refinement loop performs at most max_iterations iterations and
at most as many scoring passes as iterations; it stops by iteration
exhaustion exactly when it runs all max_iterations iterations, so fewer
iterations happen iff one of the early conditions fired (no new posts —
before any scoring that iteration, hence one fewer scoring pass —, target
reached, or no refined keywords, the last being impossible on the final
allowed iteration since refinement is only attempted when iterations
remain). The evaluation order of the checks is fixed in `loopFrom`,
mirroring agent.py lines 157, 170, 175 and 179. -/
theorem loop_iteration_bound (env : Env) (cfg : Config) :
    (runLoop env cfg).iterations ≤ cfg.max_iterations ∧
    (runLoop env cfg).scoringPasses ≤ (runLoop env cfg).iterations ∧
    ((runLoop env cfg).reason = StopReason.iterationsExhausted →
      (runLoop env cfg).iterations = cfg.max_iterations) ∧
    ((runLoop env cfg).iterations < cfg.max_iterations →
      (runLoop env cfg).reason ≠ StopReason.iterationsExhausted) ∧
    ((runLoop env cfg).reason = StopReason.noKeywords →
      (runLoop env cfg).iterations < cfg.max_iterations) ∧
    ((runLoop env cfg).reason = StopReason.noNewPosts →
      (runLoop env cfg).scoringPasses + 1 = (runLoop env cfg).iterations) := by
  unfold runLoop
  obtain ⟨h1, h2, h3, h4, h5⟩ :=
    loopFrom_spec env cfg cfg.max_iterations 1 ⟨[], [], 0, cfg.keywords⟩
  exact ⟨h1, h2, h3, fun hlt hr => absurd (h3 hr) (by omega), h4, h5⟩

theorem qle_trans : ∀ (a b c : Post),
    decide (postScore b ≤ postScore a) = true →
    decide (postScore c ≤ postScore b) = true →
    decide (postScore c ≤ postScore a) = true := by
  intro a b c h1 h2
  rw [decide_eq_true_eq] at h1 h2 ⊢
  omega

theorem qle_total : ∀ (a b : Post),
    (decide (postScore b ≤ postScore a) || decide (postScore a ≤ postScore b)) = true := by
  intro a b
  rcases Int.le_total (postScore b) (postScore a) with h | h <;> simp [h]

theorem sortQualifiedDesc_perm (l : List Post) : (sortQualifiedDesc l).Perm l :=
  List.mergeSort_perm l _

theorem sortQualifiedDesc_length (l : List Post) :
    (sortQualifiedDesc l).length = l.length :=
  List.length_mergeSort l

theorem sortQualifiedDesc_sorted (l : List Post) :
    List.Pairwise (fun a b => postScore b ≤ postScore a) (sortQualifiedDesc l) := by
  have h := List.sorted_mergeSort qle_trans qle_total l
  exact h.imp (fun hab => by simpa using hab)

theorem sortQualifiedDesc_stable (l : List Post) (s : Int) :
    (sortQualifiedDesc l).filter (fun p => postScore p == s) =
      l.filter (fun p => postScore p == s) := by
  have hsub : (l.filter (fun p => postScore p == s)).Sublist l := List.filter_sublist l
  have hpw : List.Pairwise (fun a b : Post => decide (postScore b ≤ postScore a) = true)
      (l.filter (fun p => postScore p == s)) := by
    apply List.pairwise_of_forall_mem_list
    intro a ha b hb
    have ha' := List.of_mem_filter ha
    have hb' := List.of_mem_filter hb
    rw [beq_iff_eq] at ha' hb'
    rw [decide_eq_true_eq, ha', hb']
  have hsl : (l.filter (fun p => postScore p == s)).Sublist (sortQualifiedDesc l) :=
    List.sublist_mergeSort qle_trans qle_total hpw hsub
  have hself : (l.filter (fun p => postScore p == s)).filter (fun p => postScore p == s) =
      l.filter (fun p => postScore p == s) :=
    List.filter_eq_self.mpr (fun a ha => (List.mem_filter.mp ha).2)
  have hsl2 : (l.filter (fun p => postScore p == s)).Sublist
      ((sortQualifiedDesc l).filter (fun p => postScore p == s)) := by
    have := List.Sublist.filter (fun p => postScore p == s) hsl
    rwa [hself] at this
  have hlen : ((sortQualifiedDesc l).filter (fun p => postScore p == s)).length =
      (l.filter (fun p => postScore p == s)).length :=
    ((List.mergeSort_perm l _).filter _).length_eq
  exact (hsl2.eq_of_length hlen.symm).symm

/-- C3. The final output equals the accumulated qualified list sorted by
intent score descending and truncated to max_results; its length is
min(count of qualified posts, max_results); it is sorted descending; and
the sort is a stable permutation: posts of any fixed score appear in the
sorted list exactly in their order of discovery in the accumulated list. -/
theorem final_output_sorted (env : Env) (cfg : Config) :
    runAgent env cfg =
      (sortQualifiedDesc (runLoop env cfg).state.all_qualified).take cfg.max_results ∧
    (runAgent env cfg).length =
      min (runLoop env cfg).state.all_qualified.length cfg.max_results ∧
    List.Pairwise (fun a b => postScore b ≤ postScore a) (runAgent env cfg) ∧
    (sortQualifiedDesc (runLoop env cfg).state.all_qualified).Perm
      (runLoop env cfg).state.all_qualified ∧
    (∀ s : Int,
      (sortQualifiedDesc (runLoop env cfg).state.all_qualified).filter
          (fun p => postScore p == s) =
        (runLoop env cfg).state.all_qualified.filter (fun p => postScore p == s)) := by
  refine ⟨rfl, ?_, ?_, sortQualifiedDesc_perm _, fun s => sortQualifiedDesc_stable _ s⟩
  · unfold runAgent
    rw [List.length_take, sortQualifiedDesc_length]
    exact Nat.min_comm _ _
  · unfold runAgent
    exact List.Pairwise.sublist (List.take_sublist _ _) (sortQualifiedDesc_sorted _)

end SocialListener
